import Mathlib

/-!
Verification development for `scripts/setup_tactical_puzzles.py`: a shallow
embedding of the script's pure core (quality filtering, extraction loop,
fixture conversion, fetch/marker state handling) together with theorems about
the properties the design document states.

Conventions of the embedding:
* CSV rows are modelled with the numeric fields already parsed (the script
  parses `Rating`, `Popularity`, `NbPlays` with `int(...)` on every row).
* Python operations that can raise an exception are modelled in `Option`;
  a `none` result corresponds to the exception propagating out of the
  function.
* The external python-chess library is modelled as an interface
  (`ChessLib`): any state type with `Board(fen)`, `board.fen()`,
  `Move.from_uci`, `board.san` and `board.push` operations. `Move.from_uci`,
  `board.san` and `Board(fen)` can raise in Python and therefore return
  `Option`.
* Filesystem and network effects are modelled as explicit state and action
  logs.
-/

/-- Helper for `pySplit`: walk the characters, accumulating the current word
(in reverse) and emitting it at each whitespace boundary. -/
def splitWsAux : List Char → List Char → List String
  | [], cur => if cur.isEmpty then [] else [String.mk cur.reverse]
  | c :: cs, cur =>
    if c.isWhitespace then
      if cur.isEmpty then splitWsAux cs []
      else String.mk cur.reverse :: splitWsAux cs []
    else splitWsAux cs (c :: cur)

/-- Python `str.split()` with no separator: split on whitespace runs and drop
empty pieces. -/
def pySplit (s : String) : List String :=
  splitWsAux s.data []

/-- Whether `pat` starts the character list. -/
def startsChars : List Char → List Char → Bool
  | [], _ => true
  | _ :: _, [] => false
  | p :: ps, c :: cs => p = c && startsChars ps cs

/-- Whether `pat` occurs somewhere in the character list. -/
def occursChars (pat : List Char) : List Char → Bool
  | [] => startsChars pat []
  | c :: cs => startsChars pat (c :: cs) || occursChars pat cs

/-- Python `pat in s` substring test. -/
def containsSub (s pat : String) : Bool :=
  occursChars pat.data s.data

/-- Python `str.upper()` for the ASCII pattern names, applied
character-wise. -/
def pyUpper (s : String) : String := String.mk (s.data.map Char.toUpper)

/-- Python `str.lower()` applied character-wise (ASCII input). -/
def pyLower (s : String) : String := String.mk (s.data.map Char.toLower)

/-- Python `str.strip()`: drop leading and trailing whitespace. -/
def pyStrip (s : String) : String :=
  String.mk ((s.data.dropWhile Char.isWhitespace).reverse.dropWhile
    Char.isWhitespace).reverse

/-! ## Configuration constants (lines 39-63 of the script) -/

def LICHESS_PUZZLE_URL : String := "https://database.lichess.org/lichess_db_puzzle.csv.zst"

def SETUP_MARKER : String := ".tactical_puzzles_configured"

def PATTERN_THEMES : List (String × List String) :=
  [("pin", ["pin"]),
   ("fork", ["fork"]),
   ("skewer", ["skewer"]),
   ("discovered_check", ["discoveredAttack"]),
   ("double_attack", ["doubleCheck", "fork"]),
   ("overloading", ["overloading"]),
   ("back_rank_weakness", ["backRankMate"]),
   ("trapped_piece", ["trappedPiece"])]

def MIN_POPULARITY : Int := 50
def MIN_RATING : Int := 800
def MAX_RATING : Int := 2200
def MIN_PLAYS : Int := 50
def DEFAULT_PUZZLES_PER_PATTERN : Nat := 20

/-! ## Data model -/

/-- One row of the Lichess puzzle CSV (the fields the script reads). -/
structure Row where
  PuzzleId : String
  FEN : String
  Moves : String
  Rating : Int
  Popularity : Int
  NbPlays : Int
  Themes : String
deriving DecidableEq

/-- One entry of a fixture's move sequence. -/
structure MoveEntry where
  uci : String
  san : String
  player : Bool
deriving DecidableEq

/-- The fixture record built by `lichess_to_fixture` (its returned dict). -/
structure Fixture where
  id : String
  initialFen : String
  sideToMove : String
  rating : Int
  bestMoveSan : String
  bestMoveUci : String
  moves : List MoveEntry
  resultingFen : String
  expectedPatternType : String
  context : String
  tags : List String
deriving DecidableEq

/-! ## Pattern extractor (`extract_puzzles_for_pattern`, lines 143-174) -/

/-- The per-row acceptance test (lines 152-162): tag intersection plus the
four numeric quality thresholds. -/
def acceptsRow (themes : List String) (row : Row) : Bool :=
  let puzzle_themes := pySplit row.Themes
  (themes.any fun theme => puzzle_themes.contains theme)
    && decide (MIN_POPULARITY ≤ row.Popularity)
    && decide (MIN_RATING ≤ row.Rating ∧ row.Rating ≤ MAX_RATING)
    && decide (MIN_PLAYS ≤ row.NbPlays)

/-- The scanning loop (lines 152-168): stream rows in file order, append each
accepted row, and break as soon as the collected list has reached
`max_puzzles`. -/
def extractLoop (themes : List String) (max_puzzles : Nat) (acc : List Row) :
    List Row → List Row
  | [] => acc
  | row :: rest =>
    if acceptsRow themes row then
      if max_puzzles ≤ (acc ++ [row]).length then acc ++ [row]
      else extractLoop themes max_puzzles (acc ++ [row]) rest
    else extractLoop themes max_puzzles acc rest

/-- Comparison used by `puzzles.sort(key=popularity, reverse=True)`:
descending popularity. -/
def popDesc (a b : Row) : Bool := decide (b.Popularity ≤ a.Popularity)

/-- The extractor function extract_puzzles_for_pattern: scan (with early
break), sort descending by
popularity, and cap at `max_puzzles` (the final `[:max_puzzles]` slice). -/
def extract_puzzles_for_pattern (table : List Row) (themes : List String)
    (max_puzzles : Nat) : List Row :=
  let puzzles := extractLoop themes max_puzzles [] table
  let sorted := puzzles.mergeSort popDesc
  sorted.take max_puzzles

/-! ## Fixture converter (`lichess_to_fixture`, lines 177-249) -/

/-- Interface of the python-chess operations the converter uses. Operations
that can raise (`Board(fen)` on a bad FEN, `Move.from_uci` on a bad encoding,
`board.san` on a move illegal in the current position) return `Option`. -/
structure ChessLib (S M : Type) where
  fromFen : String → Option S
  fen : S → String
  moveFromUci : String → Option M
  san : S → M → Option String
  push : S → M → S

/-- The replay loop of `lichess_to_fixture` (lines 205-221). `i` is the
`enumerate(moves_uci[1:], start=1)` index; a move is tagged as the player's
iff `i` is odd. A failing `Move.from_uci` or `board.san` aborts the record. -/
def convertLoop {S M : Type} (lib : ChessLib S M) :
    S → Nat → List String → Option (S × List MoveEntry)
  | board, _, [] => some (board, [])
  | board, i, move_uci :: rest =>
    match lib.moveFromUci move_uci with
    | none => none
    | some move =>
      match lib.san board move with
      | none => none
      | some move_san =>
        match convertLoop lib (lib.push board move) (i + 1) rest with
        | none => none
        | some (final, seq) =>
          some (final, ⟨move_uci, move_san, decide (i % 2 = 1)⟩ :: seq)

/-- The converter function lichess_to_fixture (lines 177-249). Each
`match ... | none => none`
mirrors a Python call that can raise, in the order the script performs them;
list indexing out of range (`moves_uci[0]`, `moves_uci[1]`) likewise raises. -/
def lichess_to_fixture {S M : Type} (lib : ChessLib S M) (puzzle_row : Row)
    (pattern_type : String) : Option Fixture :=
  let fen := puzzle_row.FEN
  let moves_uci := pySplit puzzle_row.Moves
  match lib.fromFen fen with
  | none => none
  | some board0 =>
  match moves_uci[0]? with
  | none => none
  | some uci0 =>
  match lib.moveFromUci uci0 with
  | none => none
  | some opponent_move =>
  let board := lib.push board0 opponent_move
  let initial_fen := lib.fen board
  let side_to_move := if containsSub initial_fen (" w ") then ("white") else ("black")
  match convertLoop lib board 1 (moves_uci.drop 1) with
  | none => none
  | some (finalBoard, move_sequence) =>
  let resulting_fen := lib.fen finalBoard
  match moves_uci[1]? with
  | none => none
  | some first_player_move_uci =>
  match lib.fromFen initial_fen with
  | none => none
  | some board_temp =>
  match lib.moveFromUci first_player_move_uci with
  | none => none
  | some first_player_move =>
  match lib.san board_temp first_player_move with
  | none => none
  | some first_player_move_san =>
  some
    { id := puzzle_row.PuzzleId
      initialFen := initial_fen
      sideToMove := side_to_move
      rating := puzzle_row.Rating
      bestMoveSan := first_player_move_san
      bestMoveUci := first_player_move_uci
      moves := move_sequence
      resultingFen := resulting_fen
      expectedPatternType := pyUpper pattern_type
      context := "Lichess puzzle " ++ puzzle_row.PuzzleId ++ " (Rating: "
        ++ toString puzzle_row.Rating ++ ", Popularity: "
        ++ toString puzzle_row.Popularity ++ ")"
      tags := pySplit puzzle_row.Themes }

/-! ## Orchestrator (`main`, lines 279-388) -/

/-- The per-record conversion loop of `main` (lines 354-360): convert each
puzzle, catching the per-record exception and skipping the record. -/
def convertBatch {S M : Type} (lib : ChessLib S M) (pattern : String)
    (puzzles : List Row) : List Fixture :=
  puzzles.filterMap fun puzzle => lichess_to_fixture lib puzzle pattern

/-- Outcome of one category in `main`'s step-3 loop (lines 346-365). -/
inductive CatOutcome where
  | noMatches : CatOutcome
  | allFailed : CatOutcome
  | file : List Fixture → CatOutcome
deriving DecidableEq

/-- One iteration of `main`'s category loop: extract; on zero matches warn and
skip; otherwise convert and write a file iff at least one fixture survived. -/
def process_category {S M : Type} (lib : ChessLib S M) (table : List Row)
    (max_puzzles : Nat) (cat : String × List String) : CatOutcome :=
  let puzzles := extract_puzzles_for_pattern table cat.2 max_puzzles
  if puzzles.length = 0 then CatOutcome.noMatches
  else
    let fixtures := convertBatch lib cat.1 puzzles
    if fixtures.length = 0 then CatOutcome.allFailed
    else CatOutcome.file fixtures

/-- The fixture files written by `main`'s step 3: one `(pattern, cases)` entry
per category whose conversion produced at least one fixture. -/
def outputFiles {S M : Type} (lib : ChessLib S M) (table : List Row)
    (max_puzzles : Nat) (cats : List (String × List String)) :
    List (String × List Fixture) :=
  cats.filterMap fun cat =>
    match process_category lib table max_puzzles cat with
    | CatOutcome.file fixtures => some (cat.1, fixtures)
    | _ => none

/-! ## Database fetcher (`download_puzzle_database`, lines 105-140) -/

/-- The cached-file state the fetcher probes: whether the decompressed and the
compressed database files exist in the download directory. -/
structure FetchState where
  decompressedExists : Bool
  compressedExists : Bool
deriving DecidableEq

/-- External calls the fetcher can perform. -/
inductive FetchAction where
  | networkFetch : FetchAction
  | decompressCall : FetchAction
deriving DecidableEq

def decompressed_file : String := "downloads/lichess_db_puzzle.csv"

/-- The fetcher function download_puzzle_database on its success path
(failures call
`sys.exit`): returns the external calls performed, the resulting file state,
and the returned path. -/
def download_puzzle_database (s : FetchState) :
    List FetchAction × FetchState × String :=
  if s.decompressedExists then ([], s, decompressed_file)
  else
    let step1 :=
      if s.compressedExists then (([] : List FetchAction), s)
      else ([FetchAction.networkFetch], { s with compressedExists := true })
    (step1.1 ++ [FetchAction.decompressCall],
      { step1.2 with decompressedExists := true }, decompressed_file)

/-! ## Setup marker (`create_setup_marker`, lines 271-275) -/

/-- A file write: path and full content. -/
structure FileWrite where
  path : String
  content : String
deriving DecidableEq

/-- What `create_setup_marker` writes: the marker path and its content. -/
def create_setup_marker : FileWrite :=
  { path := SETUP_MARKER
    content := "Tactical puzzles configured successfully\n" }

/-! ## Marker pre-check in `main` (lines 319-327) -/

inductive PreOutcome where
  | exitClean : PreOutcome
  | proceed : PreOutcome
deriving DecidableEq

/-- Observable behaviour of the already-configured check: whether the user was
prompted, whether the existing marker was unlinked, and whether the run
proceeds. -/
structure PreResult where
  prompted : Bool
  markerUnlinked : Bool
  outcome : PreOutcome
deriving DecidableEq

/-- Main's already-configured check: prompt only when the marker exists and
`--force` was not given; on a non-`y` reply exit cleanly, on `y` unlink the
marker; with `--force` (or no marker) fall through untouched. -/
def marker_precheck (markerExists force : Bool) (response : String) : PreResult :=
  if markerExists && !force then
    if pyLower (pyStrip response) ≠ "y" then ⟨true, false, PreOutcome.exitClean⟩
    else ⟨true, true, PreOutcome.proceed⟩
  else ⟨false, false, PreOutcome.proceed⟩

/-! ## Spec-side replay definitions (for the replay property) -/

/-- Apply a list of UCI moves to a board state, left to right. -/
def replayMoves {S M : Type} (lib : ChessLib S M) : S → List String → Option S
  | board, [] => some board
  | board, uci :: rest =>
    match lib.moveFromUci uci with
    | none => none
    | some m => replayMoves lib (lib.push board m) rest

/-- Start a board from a FEN and replay UCI moves, returning the final FEN. -/
def replayFen {S M : Type} (lib : ChessLib S M) (fen0 : String)
    (ucis : List String) : Option String :=
  match lib.fromFen fen0 with
  | none => none
  | some b0 =>
    match replayMoves lib b0 ucis with
    | none => none
    | some bf => some (lib.fen bf)

/-! ## Concrete instances and sample data for witnesses -/

/-- A minimal chess backend for witnesses: a board is the comma-separated log
of the pushed moves appended to the base FEN; every operation succeeds. It
satisfies `fromFen (fen s) = some s` definitionally. -/
def strLib : ChessLib String String where
  fromFen := fun s => some s
  fen := fun s => s
  moveFromUci := fun u => some u
  san := fun _ m => some m
  push := fun b m => b ++ "," ++ m

/-- Like `strLib`, but `board.san` fails on the move named bad (modelling a move
illegal in the current position). -/
def sanFailLib : ChessLib String String where
  fromFen := fun s => some s
  fen := fun s => s
  moveFromUci := fun u => some u
  san := fun _ m => if m = "bad" then none else some m
  push := fun b m => b ++ "," ++ m

def sampleRow : Row :=
  { PuzzleId := "00sHx", FEN := "r2q1rk1 w kq - 0 10", Moves := "e2e4 e7e5 g1f3",
    Rating := 1000, Popularity := 92, NbPlays := 500, Themes := "fork middlegame" }

def badMoveRow : Row :=
  { PuzzleId := "badMv", FEN := "8/8 b - - 0 1", Moves := "e2e4 bad",
    Rating := 1200, Popularity := 80, NbPlays := 200, Themes := "fork" }

def shortRow : Row :=
  { PuzzleId := "short", FEN := "8/8 w - - 0 1", Moves := "e2e4",
    Rating := 1500, Popularity := 70, NbPlays := 300, Themes := "pin" }

/-- The fixture that converting sampleRow with strLib under the fork
pattern produces (used by witnesses). -/
def sampleFixture : Fixture :=
  { id := "00sHx"
    initialFen := "r2q1rk1 w kq - 0 10,e2e4"
    sideToMove := "white"
    rating := 1000
    bestMoveSan := "e7e5"
    bestMoveUci := "e7e5"
    moves := [⟨"e7e5", "e7e5", true⟩, ⟨"g1f3", "g1f3", false⟩]
    resultingFen := "r2q1rk1 w kq - 0 10,e2e4,e7e5,g1f3"
    expectedPatternType := "FORK"
    context := "Lichess puzzle 00sHx (Rating: 1000, Popularity: 92)"
    tags := ["fork", "middlegame"] }

/-! ## Helper lemmas about the converter -/

/-- Structure of a successful `convertLoop` run: one output entry per input
move, the parity tag of entry `j` is determined by the enumerate index
`i + j`, the UCI strings are exactly the input, and the final board is the
replay of the input moves from the starting board. -/
theorem convertLoop_spec {S M : Type} (lib : ChessLib S M) :
    ∀ (l : List String) (board : S) (i : Nat) (final : S) (seq : List MoveEntry),
      convertLoop lib board i l = some (final, seq) →
      seq.length = l.length ∧
      (∀ j, j < seq.length →
        (seq.getD j ⟨"", "", false⟩).player = decide ((i + j) % 2 = 1)) ∧
      seq.map MoveEntry.uci = l ∧
      replayMoves lib board l = some final := by
  intro l
  induction l with
  | nil =>
    intro board i final seq h
    simp only [convertLoop, Option.some.injEq, Prod.mk.injEq] at h
    obtain ⟨h1, h2⟩ := h
    subst h1
    subst h2
    simp [replayMoves]
  | cons u rest ih =>
    intro board i final seq h
    unfold convertLoop at h
    split at h
    next => exact absurd h (by simp)
    next move hm =>
      split at h
      next => exact absurd h (by simp)
      next move_san hs =>
        split at h
        next => exact absurd h (by simp)
        next final' seq' hc =>
          simp only [Option.some.injEq, Prod.mk.injEq] at h
          obtain ⟨hf, hseq⟩ := h
          subst hf
          subst hseq
          obtain ⟨hlen, hpar, huci, hrep⟩ := ih (lib.push board move) (i + 1) final' seq' hc
          refine ⟨by simp [hlen], ?_, by simp [huci], ?_⟩
          · intro j hj
            cases j with
            | zero => simp
            | succ j' =>
              have hj' : j' < seq'.length := by
                simpa using Nat.lt_of_succ_lt_succ (by simpa using hj)
              have := hpar j' hj'
              have harith : i + 1 + j' = i + (j' + 1) := by omega
              simpa [harith] using this
          · simp [replayMoves, hm, hrep]

/-- A successful `lichess_to_fixture` run decomposed into the underlying
chess-library calls and the resulting record. -/
theorem lichess_to_fixture_eq_some {S M : Type} (lib : ChessLib S M)
    (row : Row) (pattern_type : String) (fx : Fixture)
    (h : lichess_to_fixture lib row pattern_type = some fx) :
    ∃ (board0 : S) (uci0 : String) (m0 : M) (final : S) (seq : List MoveEntry)
      (uci1 : String) (board_temp : S) (m1 : M) (san1 : String),
      lib.fromFen row.FEN = some board0 ∧
      (pySplit row.Moves)[0]? = some uci0 ∧
      lib.moveFromUci uci0 = some m0 ∧
      convertLoop lib (lib.push board0 m0) 1 ((pySplit row.Moves).drop 1) =
        some (final, seq) ∧
      (pySplit row.Moves)[1]? = some uci1 ∧
      lib.fromFen (lib.fen (lib.push board0 m0)) = some board_temp ∧
      lib.moveFromUci uci1 = some m1 ∧
      lib.san board_temp m1 = some san1 ∧
      fx = { id := row.PuzzleId
             initialFen := lib.fen (lib.push board0 m0)
             sideToMove :=
               if containsSub (lib.fen (lib.push board0 m0)) (" w ") then ("white")
               else ("black")
             rating := row.Rating
             bestMoveSan := san1
             bestMoveUci := uci1
             moves := seq
             resultingFen := lib.fen final
             expectedPatternType := pyUpper pattern_type
             context := "Lichess puzzle " ++ row.PuzzleId ++ " (Rating: "
               ++ toString row.Rating ++ ", Popularity: "
               ++ toString row.Popularity ++ ")"
             tags := pySplit row.Themes } := by
  simp only [lichess_to_fixture] at h
  split at h
  next => exact absurd h (by simp)
  next board0 hb0 =>
  split at h
  next => exact absurd h (by simp)
  next uci0 h0 =>
  split at h
  next => exact absurd h (by simp)
  next m0 hm0 =>
  split at h
  next => exact absurd h (by simp)
  next final seq hcl =>
  split at h
  next => exact absurd h (by simp)
  next uci1 h1 =>
  split at h
  next => exact absurd h (by simp)
  next board_temp hbt =>
  split at h
  next => exact absurd h (by simp)
  next m1 hm1 =>
  split at h
  next => exact absurd h (by simp)
  next san1 hs1 =>
  injection h with h
  exact ⟨board0, uci0, m0, final, seq, uci1, board_temp, m1, san1,
    hb0, h0, hm0, hcl, h1, hbt, hm1, hs1, h.symm⟩

/-! ## Claim theorems: fixture converter -/

/-- C1: for every fixture record the converter produces, the move sequence has
length equal to the raw move count minus 1 (the setup move at raw index 0 is
never included), and the move at 0-based sequence position `i` is tagged
"player" iff `i` is even. -/
theorem fixture_move_sequence_parity {S M : Type} (lib : ChessLib S M)
    (row : Row) (pattern_type : String) (fx : Fixture)
    (h : lichess_to_fixture lib row pattern_type = some fx) :
    fx.moves.length = (pySplit row.Moves).length - 1 ∧
    ∀ i, i < fx.moves.length →
      ((fx.moves.getD i ⟨"", "", false⟩).player = true ↔ i % 2 = 0) := by
  obtain ⟨board0, uci0, m0, final, seq, uci1, board_temp, m1, san1,
    hb0, h0, hm0, hcl, h1, hbt, hm1, hs1, hfx⟩ :=
      lichess_to_fixture_eq_some lib row pattern_type fx h
  obtain ⟨hlen, hpar, -, -⟩ := convertLoop_spec lib _ _ _ _ _ hcl
  subst hfx
  constructor
  · simpa using hlen
  · intro i hi
    have hp := hpar i (by simpa using hi)
    simp only at hp ⊢
    rw [hp]
    simp only [decide_eq_true_eq]
    omega

/-- Witness for C1 at the concrete backend `strLib` and row `sampleRow`. -/
theorem fixture_move_sequence_parity_witness :
    sampleFixture.moves.length = (pySplit sampleRow.Moves).length - 1 ∧
    ∀ i, i < sampleFixture.moves.length →
      ((sampleFixture.moves.getD i ⟨"", "", false⟩).player = true ↔ i % 2 = 0) :=
  fixture_move_sequence_parity strLib sampleRow ("fork") sampleFixture (by decide)

/-- C2: for every record the converter accepts, starting a board from the
fixture's `initialFen` and applying the whole move sequence yields exactly the
fixture's `resultingFen` — for any chess backend whose FEN round-trips its
board state (`Board(b.fen())` restores `b`, as in python-chess). -/
theorem fixture_replay_reproduces_resultingFen {S M : Type} (lib : ChessLib S M)
    (hrt : ∀ s : S, lib.fromFen (lib.fen s) = some s)
    (row : Row) (pattern_type : String) (fx : Fixture)
    (h : lichess_to_fixture lib row pattern_type = some fx) :
    replayFen lib fx.initialFen (fx.moves.map MoveEntry.uci) =
      some fx.resultingFen := by
  obtain ⟨board0, uci0, m0, final, seq, uci1, board_temp, m1, san1,
    hb0, h0, hm0, hcl, h1, hbt, hm1, hs1, hfx⟩ :=
      lichess_to_fixture_eq_some lib row pattern_type fx h
  obtain ⟨-, -, huci, hrep⟩ := convertLoop_spec lib _ _ _ _ _ hcl
  subst hfx
  simp only [replayFen, hrt, huci, hrep]

/-- Witness for C2 at the concrete backend `strLib` and row `sampleRow`. -/
theorem fixture_replay_reproduces_resultingFen_witness :
    replayFen strLib sampleFixture.initialFen
      (sampleFixture.moves.map MoveEntry.uci) = some sampleFixture.resultingFen :=
  fixture_replay_reproduces_resultingFen strLib (fun _ => rfl) sampleRow
    ("fork") sampleFixture (by decide)

/-- C10: a raw record whose move list has fewer than two moves always fails
conversion (the script's out-of-range access raising), so every fixture
emitted by the per-record batch loop originates from a record with at least
two moves. -/
theorem short_record_conversion_fails {S M : Type} (lib : ChessLib S M)
    (pattern_type : String) :
    (∀ row : Row, (pySplit row.Moves).length < 2 →
        lichess_to_fixture lib row pattern_type = none) ∧
    (∀ (puzzles : List Row) (fx : Fixture),
        fx ∈ convertBatch lib pattern_type puzzles →
        ∃ r ∈ puzzles, 2 ≤ (pySplit r.Moves).length ∧
          lichess_to_fixture lib r pattern_type = some fx) := by
  have hfail : ∀ row : Row, (pySplit row.Moves).length < 2 →
      lichess_to_fixture lib row pattern_type = none := by
    intro row hlen
    rcases hm : pySplit row.Moves with _ | ⟨u, _ | ⟨v, rest⟩⟩
    · cases hb : lib.fromFen row.FEN <;>
        simp [lichess_to_fixture, hm, hb]
    · cases hb : lib.fromFen row.FEN <;>
        cases hu : lib.moveFromUci u <;>
          simp [lichess_to_fixture, hm, hb, hu, convertLoop]
    · rw [hm] at hlen
      simp only [List.length_cons] at hlen
      omega
  refine ⟨hfail, ?_⟩
  intro puzzles fx hmem
  simp only [convertBatch, List.mem_filterMap] at hmem
  obtain ⟨r, hr, hconv⟩ := hmem
  refine ⟨r, hr, ?_, hconv⟩
  by_contra hlt
  rw [hfail r (by omega)] at hconv
  exact Option.noConfusion hconv

/-- Witness for C10: the one-move record `shortRow` fails conversion. -/
theorem short_record_conversion_fails_witness :
    lichess_to_fixture strLib shortRow ("pin") = none :=
  (short_record_conversion_fails strLib ("pin")).1 shortRow (by decide)

/-- C5: an illegal move (a failing `board.san`) makes the converter fail on
that record alone, and the orchestrator's per-record try/except removes
exactly the failing record from the batch, keeping all other converted
records. -/
theorem illegal_move_record_skipped {S M : Type} (lib : ChessLib S M)
    (pattern_type : String) :
    (∀ (row : Row) (board0 : S) (u0 u1 : String) (rest : List String) (m0 m1 : M),
        pySplit row.Moves = u0 :: u1 :: rest →
        lib.fromFen row.FEN = some board0 →
        lib.moveFromUci u0 = some m0 →
        lib.moveFromUci u1 = some m1 →
        lib.san (lib.push board0 m0) m1 = none →
        lichess_to_fixture lib row pattern_type = none) ∧
    (∀ (pre post : List Row) (r : Row),
        lichess_to_fixture lib r pattern_type = none →
        convertBatch lib pattern_type (pre ++ r :: post) =
          convertBatch lib pattern_type pre ++ convertBatch lib pattern_type post) := by
  constructor
  · intro row board0 u0 u1 rest m0 m1 hm hb hu0 hu1 hsan
    simp [lichess_to_fixture, hm, hb, hu0, convertLoop, hu1, hsan]
  · intro pre post r hnone
    simp [convertBatch, List.filterMap_append, List.filterMap_cons, hnone]

/-- Witness for C5: `badMoveRow`'s second move is illegal under `sanFailLib`;
the record is dropped and the surrounding records survive. -/
theorem illegal_move_record_skipped_witness :
    lichess_to_fixture sanFailLib badMoveRow ("fork") = none ∧
    convertBatch sanFailLib ("fork") ([sampleRow] ++ badMoveRow :: [sampleRow]) =
      convertBatch sanFailLib ("fork") [sampleRow] ++
        convertBatch sanFailLib ("fork") [sampleRow] := by
  have h1 := (illegal_move_record_skipped sanFailLib ("fork")).1 badMoveRow
    ("8/8 b - - 0 1") ("e2e4") ("bad") [] ("e2e4") ("bad")
    (by decide) (by decide) (by decide) (by decide) (by decide)
  exact ⟨h1, (illegal_move_record_skipped sanFailLib ("fork")).2
    [sampleRow] [sampleRow] badMoveRow h1⟩

/-! ## Helper lemmas about the extractor -/

/-- Every row the scanning loop returns is either from the initial accumulator
or satisfies the acceptance test. -/
theorem extractLoop_mem (themes : List String) (max_puzzles : Nat) :
    ∀ (l acc : List Row) (r : Row), r ∈ extractLoop themes max_puzzles acc l →
      r ∈ acc ∨ acceptsRow themes r = true := by
  intro l
  induction l with
  | nil =>
    intro acc r h
    exact Or.inl (by simpa [extractLoop] using h)
  | cons row rest ih =>
    intro acc r h
    unfold extractLoop at h
    split at h
    next hacc =>
      split at h
      next =>
        rcases List.mem_append.1 h with h' | h'
        · exact Or.inl h'
        · simp only [List.mem_singleton] at h'
          subst h'
          exact Or.inr hacc
      next =>
        rcases ih (acc ++ [row]) r h with h' | h'
        · rcases List.mem_append.1 h' with h'' | h''
          · exact Or.inl h''
          · simp only [List.mem_singleton] at h''
            subst h''
            exact Or.inr hacc
        · exact Or.inr h'
    next => exact ih acc r h

/-- If the scan has already seen enough accepted rows inside `pre`, the rows
after `pre` are never reached. -/
theorem extractLoop_early (themes : List String) (max_puzzles : Nat) :
    ∀ (pre post acc : List Row), acc.length < max_puzzles →
      max_puzzles ≤ acc.length + pre.countP (acceptsRow themes) →
      extractLoop themes max_puzzles acc (pre ++ post) =
        extractLoop themes max_puzzles acc pre := by
  intro pre
  induction pre with
  | nil =>
    intro post acc hlt hle
    simp only [List.countP_nil, Nat.add_zero] at hle
    omega
  | cons row rest ih =>
    intro post acc hlt hle
    rw [List.cons_append]
    unfold extractLoop
    by_cases hacc : acceptsRow themes row = true
    · rw [if_pos hacc, if_pos hacc]
      by_cases hstop : max_puzzles ≤ (acc ++ [row]).length
      · rw [if_pos hstop, if_pos hstop]
      · rw [if_neg hstop, if_neg hstop]
        refine ih post (acc ++ [row]) ?_ ?_
        · simp only [List.length_append, List.length_cons, List.length_nil] at hstop ⊢
          omega
        · have := List.countP_cons_of_pos (acceptsRow themes) (l := rest) hacc
          simp only [List.length_append, List.length_cons, List.length_nil]
          omega
    · rw [if_neg hacc, if_neg hacc]
      refine ih post acc hlt ?_
      have := List.countP_cons_of_neg (acceptsRow themes) (l := rest) (by simpa using hacc)
      omega
  
/-- If the whole list holds fewer accepted rows than the cap, the scan never
breaks and returns the accumulator followed by every accepted row. -/
theorem extractLoop_all (themes : List String) (max_puzzles : Nat) :
    ∀ (l acc : List Row),
      acc.length + l.countP (acceptsRow themes) < max_puzzles →
      extractLoop themes max_puzzles acc l =
        acc ++ l.filter (acceptsRow themes) := by
  intro l
  induction l with
  | nil =>
    intro acc h
    simp [extractLoop]
  | cons row rest ih =>
    intro acc h
    unfold extractLoop
    by_cases hacc : acceptsRow themes row = true
    · rw [if_pos hacc]
      have hcnt := List.countP_cons_of_pos (acceptsRow themes) (l := rest) hacc
      have hns : ¬ max_puzzles ≤ (acc ++ [row]).length := by
        simp only [List.length_append, List.length_cons, List.length_nil]
        omega
      rw [if_neg hns]
      rw [ih (acc ++ [row]) (by
        simp only [List.length_append, List.length_cons, List.length_nil]
        omega)]
      simp [List.filter_cons_of_pos hacc]
    · rw [if_neg hacc]
      have hcnt := List.countP_cons_of_neg (acceptsRow themes) (l := rest)
        (by simpa using hacc)
      rw [ih acc (by omega)]
      simp [List.filter_cons_of_neg, hacc]

/-! ## Claim theorems: pattern extractor -/

/-- C3: a row is accepted iff its whitespace-split tag set meets the
category's theme set, popularity ≥ 50, 800 ≤ rating ≤ 2200 and play count
≥ 50; and every row the extractor returns passes this acceptance test. -/
theorem extractor_acceptance_iff (themes : List String) (row : Row) :
    (acceptsRow themes row = true ↔
      ((∃ t ∈ themes, t ∈ pySplit row.Themes) ∧
        50 ≤ row.Popularity ∧ 800 ≤ row.Rating ∧ row.Rating ≤ 2200 ∧
        50 ≤ row.NbPlays)) ∧
    (∀ (table : List Row) (limit : Nat) (r : Row),
        r ∈ extract_puzzles_for_pattern table themes limit →
        acceptsRow themes r = true) := by
  constructor
  · simp [acceptsRow, MIN_POPULARITY, MIN_RATING, MAX_RATING, MIN_PLAYS,
      List.any_eq_true, and_assoc, List.contains, List.elem_eq_mem]
  · intro table limit r hr
    simp only [extract_puzzles_for_pattern] at hr
    have hr' : r ∈ (extractLoop themes limit [] table).mergeSort popDesc :=
      List.take_subset _ _ hr
    rw [List.mem_mergeSort] at hr'
    rcases extractLoop_mem themes limit table [] r hr' with h | h
    · simp at h
    · exact h

/-- Witness for C3: `sampleRow` is returned by the extractor on a one-row
table and indeed passes the acceptance test. -/
theorem extractor_acceptance_iff_witness :
    acceptsRow ["fork"] sampleRow = true :=
  (extractor_acceptance_iff ["fork"] sampleRow).2 [sampleRow] 5 sampleRow
    (by
      have hacc : acceptsRow ["fork"] sampleRow = true := by decide
      simp [extract_puzzles_for_pattern, extractLoop, hacc])

/-- C4: the extractor returns at most `limit` records, sorted descending by
popularity; once `limit` accepted rows have been collected the rest of the
table is irrelevant (early break); and when fewer than `limit` rows match,
every match is returned. -/
theorem extractor_cap_sorted_early (table : List Row) (themes : List String)
    (limit : Nat) :
    (extract_puzzles_for_pattern table themes limit).length ≤ limit ∧
    (extract_puzzles_for_pattern table themes limit).Pairwise
      (fun a b => b.Popularity ≤ a.Popularity) ∧
    (∀ pre post, table = pre ++ post →
      limit ≤ pre.countP (acceptsRow themes) →
      extract_puzzles_for_pattern table themes limit =
        extract_puzzles_for_pattern pre themes limit) ∧
    (table.countP (acceptsRow themes) < limit →
      (extract_puzzles_for_pattern table themes limit).Perm
        (table.filter (acceptsRow themes))) := by
  refine ⟨?_, ?_, ?_, ?_⟩
  · simp only [extract_puzzles_for_pattern, List.length_take]
    omega
  · have hsorted := @List.sorted_mergeSort Row popDesc
      (fun a b c hab hbc => by
        simp only [popDesc, decide_eq_true_eq] at hab hbc ⊢
        omega)
      (fun a b => by
        simp only [popDesc]
        rcases Int.le_total b.Popularity a.Popularity with h | h <;> simp [h])
      (extractLoop themes limit [] table)
    have htake := List.Pairwise.sublist
      (List.take_sublist limit ((extractLoop themes limit [] table).mergeSort popDesc))
      hsorted
    exact htake.imp (fun h => by simpa [popDesc] using h)
  · rintro pre post rfl hle
    rcases Nat.eq_zero_or_pos limit with h0 | hpos
    · subst h0
      simp [extract_puzzles_for_pattern]
    · simp only [extract_puzzles_for_pattern]
      rw [extractLoop_early themes limit pre post []
        (by simpa using hpos) (by simpa using hle)]
  · intro hcnt
    simp only [extract_puzzles_for_pattern]
    rw [extractLoop_all themes limit table [] (by simpa using hcnt)]
    have hlen : (((([] : List Row) ++ table.filter (acceptsRow themes)).mergeSort
        popDesc)).length ≤ limit := by
      simp only [List.length_mergeSort, List.nil_append]
      rw [← List.countP_eq_length_filter]
      omega
    rw [List.take_of_length_le hlen]
    simpa using List.mergeSort_perm (([] : List Row) ++ table.filter (acceptsRow themes)) popDesc

/-- Witness for C4: early break and all-matches instantiated on concrete
tables. -/
theorem extractor_cap_sorted_early_witness :
    extract_puzzles_for_pattern [sampleRow, shortRow] ["fork"] 1 =
      extract_puzzles_for_pattern [sampleRow] ["fork"] 1 ∧
    (extract_puzzles_for_pattern [sampleRow] ["fork"] 5).Perm
      ([sampleRow].filter (acceptsRow ["fork"])) :=
  ⟨(extractor_cap_sorted_early [sampleRow, shortRow] ["fork"] 1).2.2.1
      [sampleRow] [shortRow] rfl (by decide),
   (extractor_cap_sorted_early [sampleRow] ["fork"] 5).2.2.2 (by decide)⟩

/-! ## Claim theorems: orchestrator, fetcher, marker -/

/-- C6: a category whose extraction matches zero rows yields the
warning-and-skip outcome and contributes no output file, while the other
categories' files are exactly what they would be without it. -/
theorem zero_match_category_no_file {S M : Type} (lib : ChessLib S M)
    (table : List Row) (max_puzzles : Nat) (p : String) (th : List String)
    (h : extract_puzzles_for_pattern table th max_puzzles = []) :
    process_category lib table max_puzzles (p, th) = CatOutcome.noMatches ∧
    ∀ pre post,
      outputFiles lib table max_puzzles (pre ++ (p, th) :: post) =
        outputFiles lib table max_puzzles pre ++
          outputFiles lib table max_puzzles post := by
  have hcat : process_category lib table max_puzzles (p, th) =
      CatOutcome.noMatches := by
    simp [process_category, h]
  refine ⟨hcat, ?_⟩
  intro pre post
  simp [outputFiles, List.filterMap_append, List.filterMap_cons, hcat]

/-- Witness for C6 on an empty table with the real pattern names. -/
theorem zero_match_category_no_file_witness :
    process_category strLib ([] : List Row) 20 ("fork", ["fork"]) =
      CatOutcome.noMatches ∧
    outputFiles strLib ([] : List Row) 20
        ([("pin", ["pin"])] ++ ("fork", ["fork"]) :: [("skewer", ["skewer"])]) =
      outputFiles strLib ([] : List Row) 20 [("pin", ["pin"])] ++
        outputFiles strLib ([] : List Row) 20 [("skewer", ["skewer"])] := by
  have h := zero_match_category_no_file strLib ([] : List Row) 20 ("fork") ["fork"]
    (by simp [extract_puzzles_for_pattern, extractLoop])
  exact ⟨h.1, h.2 [("pin", ["pin"])] [("skewer", ["skewer"])]⟩

/-- C7: when the decompressed file already exists the fetcher returns its
path at once with no download or decompression call, and a second run after
any first run performs no external call and leaves the cache unchanged. -/
theorem fetch_short_circuit_idempotent (s : FetchState) :
    (s.decompressedExists = true →
      download_puzzle_database s = ([], s, decompressed_file)) ∧
    (download_puzzle_database (download_puzzle_database s).2.1).1 = [] ∧
    (download_puzzle_database (download_puzzle_database s).2.1).2.1 =
      (download_puzzle_database s).2.1 := by
  obtain ⟨d, c⟩ := s
  cases d <;> cases c <;> simp [download_puzzle_database]

/-- Witness for C7 at concrete cache states. -/
theorem fetch_short_circuit_idempotent_witness :
    download_puzzle_database ⟨true, false⟩ = ([], ⟨true, false⟩, decompressed_file) ∧
    (download_puzzle_database (download_puzzle_database ⟨false, false⟩).2.1).1 = [] :=
  ⟨(fetch_short_circuit_idempotent ⟨true, false⟩).1 rfl,
   (fetch_short_circuit_idempotent ⟨false, false⟩).2.1⟩

/-- C8 counterexample: the marker file's content is not empty — the script
writes a fixed one-line message into it, so it is not a zero-content file. -/
theorem setup_marker_content_nonempty :
    ¬ (create_setup_marker.content = "") := by
  decide

/-- C8 amended: the setup marker write targets the fixed marker path and
carries the fixed one-line success message (not zero content); only its
existence is meaningful downstream. -/
theorem setup_marker_write_shape :
    create_setup_marker.path = SETUP_MARKER ∧
    create_setup_marker.content = "Tactical puzzles configured successfully\n" :=
  ⟨rfl, rfl⟩

/-- C9 counterexample: with `--force` and an existing marker the prompt is
skipped, but the marker is NOT deleted — `unlink` runs only inside the
confirmation branch, which `--force` bypasses entirely. -/
theorem force_leaves_marker_in_place :
    ¬ ((marker_precheck true true ("")).markerUnlinked = true) := by
  decide

/-- C9 amended: with `--force` the confirmation prompt is skipped and the run
proceeds without deleting the existing marker; the marker is only unlinked
when an un-forced run is confirmed with the letter y. -/
theorem force_skips_prompt_without_unlink (response : String) :
    marker_precheck true true response = ⟨false, false, PreOutcome.proceed⟩ ∧
    marker_precheck true false ("y") = ⟨true, true, PreOutcome.proceed⟩ := by
  exact ⟨rfl, by decide⟩
